import Mathlib

/-!
Shallow embedding of `scripts/textbooks/scrape_syllabus.py` (syllabus
scraper: HTML metadata/textbook extraction, heuristic classification,
batch annotation, CSV serialization), together with theorems settling
the frozen claims about that program.

Python strings are modelled as `List Char` (`Str`); Python's `None` as
`Option`; raised exceptions as `Except`.  Python's whitespace class is
modelled by an explicit character predicate covering the repertoire the
scraper meets; `str.lower` is modelled by ASCII lowering (the keyword
sets contain only ASCII letters and Japanese, which Python's `lower`
also leaves unchanged).
-/

namespace SyllabusScrape

/-- Python strings, modelled as lists of characters. -/
abbrev Str := List Char

/-- Whitespace characters recognised by Python's `str.strip`, `str.split`
and the regex class `\s` (for the character repertoire relevant here:
ASCII whitespace and the ideographic space). -/
def isSpace (c : Char) : Bool :=
  c = ' ' || c = '\t' || c = '\n' || c = '\r' || c = '\x0b' || c = '\x0c' || c = '　'

/-- Python `str.strip()`: remove leading and trailing whitespace. -/
def strip (s : Str) : Str :=
  ((s.dropWhile isSpace).reverse.dropWhile isSpace).reverse

/-- Lowercasing of a string, character by character (models `str.lower`
on the ASCII-plus-Japanese repertoire used by the scraper). -/
def lowerStr (s : Str) : Str :=
  s.map Char.toLower

/-- Accumulator-style worker for `splitRuns`: collects maximal runs of
characters not satisfying `p`, dropping empty pieces (this is what
`re.split` on a `[...]+` character class followed by the scraper's
empty-item filter computes). -/
def splitRunsAux (p : Char → Bool) (cur : Str) : Str → List Str
  | [] => if cur = [] then [] else [cur.reverse]
  | c :: rest =>
    if p c then
      if cur = [] then splitRunsAux p [] rest
      else cur.reverse :: splitRunsAux p [] rest
    else splitRunsAux p (c :: cur) rest

/-- Maximal runs of characters outside the class `p`, in order, empty
runs dropped. -/
def splitRuns (p : Char → Bool) (s : Str) : List Str :=
  splitRunsAux p [] s

/-- Python `value.split(maxsplit=1)`: split on the first whitespace run,
returning zero, one or two parts. -/
def pySplit1 (s : Str) : List Str :=
  let s1 := s.dropWhile isSpace
  match s1 with
  | [] => []
  | _ :: _ =>
    let tok := s1.takeWhile (fun c => !isSpace c)
    let rest := (s1.dropWhile (fun c => !isSpace c)).dropWhile isSpace
    if rest = [] then [tok] else [tok, rest]

/-- Characters that stop the leading token of the course-identifier
regex `(?P<code>[^\s：:]+)[：:](?P<title>.+)`. -/
def isIdentStop (c : Char) : Bool :=
  isSpace c || c = ':' || c = '：'

/-- Model of `re.match` for the course-identifier pattern: a non-empty
leading token of non-space non-colon characters, an ASCII or full-width
colon, then a non-empty remainder on the same line (`.` does not cross a
newline).  Returns the raw (untrimmed) token and remainder. -/
def colonSplit (value : Str) : Option (Str × Str) :=
  let tok := value.takeWhile (fun c => !isIdentStop c)
  match value.dropWhile (fun c => !isIdentStop c) with
  | c :: rest =>
    if (c = ':' ∨ c = '：') ∧ tok ≠ [] then
      let title := rest.takeWhile (fun d => d ≠ '\n')
      if title = [] then none else some (tok, title)
    else none
  | [] => none

/-- Embedding of `parse_course_identifier`: regex attempt, then a
single whitespace split, then the whole trimmed string as the code. -/
def parse_course_identifier (value : Str) : Str × Str :=
  match colonSplit value with
  | some (code, title) => (code, strip title)
  | none =>
    match pySplit1 value with
    | [a, b] => (strip a, strip b)
    | _ => (strip value, [])

/-- Embedding of `GENERAL_FACULTY_KEYWORDS`. -/
def GENERAL_FACULTY_KEYWORDS : List Str :=
  [ "共通教育".data
  , "教養教育".data
  , "全学共通".data
  , "基盤教育".data
  , "汎用教育".data
  , "General Education".data
  , "教養科目".data
  , "共通科目".data ]

/-- Embedding of `GENERAL_TITLE_KEYWORDS`. -/
def GENERAL_TITLE_KEYWORDS : List Str :=
  [ "教養".data
  , "共通科目".data
  , "General Education".data
  , "Liberal Arts".data ]

/-- Embedding of `INTERNATIONAL_TITLE_KEYWORDS`. -/
def INTERNATIONAL_TITLE_KEYWORDS : List Str :=
  [ "留学生".data
  , "International Students".data
  , "for International Students".data
  , "Non-Japanese".data
  , "外国人".data ]

/-- The category string for general-education courses. -/
def genEdStr : Str := "general-education".data

/-- The category string for faculty courses. -/
def facultyCourseStr : Str := "faculty-course".data

/-- The `multi-faculty` tag. -/
def multiFacultyStr : Str := "multi-faculty".data

/-- The `international-student` tag. -/
def intlStudentStr : Str := "international-student".data

/-- The prefix of language tags. -/
def langTagHead : Str := "lang:".data

/-- Embedding of `determine_course_category`: five rules evaluated in
order, first match wins. -/
def determine_course_category (faculty_names : List Str) (course_title : Str) : Str :=
  let normalized := (faculty_names.map strip).filter (fun n => n ≠ [])
  if normalized = [] then genEdStr
  else if normalized.any (fun f => GENERAL_FACULTY_KEYWORDS.any (fun k => decide (k <:+: f))) then
    genEdStr
  else if 3 ≤ normalized.dedup.length then genEdStr
  else if GENERAL_TITLE_KEYWORDS.any (fun k => decide (k <:+: course_title)) then genEdStr
  else facultyCourseStr

/-- Embedding of `detect_international_course`: case-insensitive
substring match against the fixed keyword list. -/
def detect_international_course (course_title : Str) : Bool :=
  let lowered := lowerStr course_title
  INTERNATIONAL_TITLE_KEYWORDS.any (fun k => decide (lowerStr k <:+: lowered))

/-- Embedding of `normalize_language_tag`: keyword containment checked
in a fixed order, `none` when no keyword matches. -/
def normalize_language_tag (language_value : Str) : Option Str :=
  if language_value = [] then none
  else
    let lowered := lowerStr language_value
    if ("english".data <:+: lowered) ∨ ("英語".data <:+: language_value) then some ("english".data)
    else if ("japanese".data <:+: lowered) ∨ ("日本語".data <:+: language_value) then some ("japanese".data)
    else if ("chinese".data <:+: lowered) ∨ ("中国語".data <:+: language_value) then some ("chinese".data)
    else if ("korean".data <:+: lowered) ∨ ("韓国語".data <:+: language_value) then some ("korean".data)
    else if ("french".data <:+: lowered) ∨ ("フランス語".data <:+: language_value) then some ("french".data)
    else if ("german".data <:+: lowered) ∨ ("ドイツ語".data <:+: language_value) then some ("german".data)
    else none

/-- Number of distinct non-empty names in a list: the size of the
Python set comprehension over the names. -/
def distinctNonEmpty (names : List Str) : Nat :=
  ((names.filter (fun n => n ≠ [])).dedup).length

/-- The tags built by `derive_tags` before sorting; a Python `set` is
modelled as a duplicate-free list, so the collection is listed here and
deduplicated by `pySortedSet`. -/
def deriveTagList (category : Str) (faculty_names : List Str) (course_title : Str)
    (instruction_language : Str) : List Str :=
  [category]
    ++ (if 1 < distinctNonEmpty faculty_names ∧ category ≠ genEdStr then [multiFacultyStr] else [])
    ++ (if detect_international_course course_title then [intlStudentStr] else [])
    ++ (match normalize_language_tag instruction_language with
        | some t => [langTagHead ++ t]
        | none => [])

/-- Python's `sorted` applied to a `set` built from the given
collection: deduplicate, then sort lexicographically. -/
def pySortedSet (l : List Str) : List Str :=
  List.insertionSort (fun a b => a ≤ b) l.dedup

/-- Embedding of `derive_tags`: the tag set, returned sorted. -/
def derive_tags (category : Str) (faculty_names : List Str) (course_title : Str)
    (instruction_language : Str) : List Str :=
  pySortedSet (deriveTagList category faculty_names course_title instruction_language)

/-- Python `sep.join(items)`. -/
def joinSep (sep : Str) : List Str → Str
  | [] => []
  | [x] => x
  | x :: y :: rest => x ++ sep ++ joinSep sep (y :: rest)

/-- The comma used to join multi-valued CSV fields. -/
def commaSep : Str := ",".data

/-- Embedding of the `TextbookRecord` dataclass; field defaults mirror
the Python dataclass defaults. -/
structure TextbookRecord where
  course_code : Str
  course_title : Str
  campus : Str
  faculty_names : List Str
  textbook_title : Str
  textbook_title_reading : Str := []
  authors : Str := []
  publisher : Str := []
  publication_year : Str := []
  isbn : Str := []
  note : Str := []
  tag_names : Str := []
  course_category : Str := []
  instruction_language : Str := []
  academic_year : Str := []
  term : Str := []
  schedule : Str := []
  classroom : Str := []
  credits : Str := []
  instructors : Option (List Str) := none
deriving DecidableEq

/-- Embedding of the `CourseMetadata` dataclass. -/
structure CourseMetadata where
  course_code : Str
  course_title : Str
  academic_year : Str
  term : Str
  schedule : Str
  campus : Str
  classroom : Str
  faculties : List Str
  instructors : List Str
  credits : Str
  instruction_language : Str
deriving DecidableEq

/-- Embedding of `CSV_HEADER`. -/
def CSV_HEADER : List Str :=
  [ "textbook_title".data
  , "textbook_title_reading".data
  , "authors".data
  , "publisher".data
  , "publication_year".data
  , "isbn".data
  , "course_title".data
  , "course_code".data
  , "academic_year".data
  , "term".data
  , "schedule".data
  , "classroom".data
  , "credits".data
  , "instructors".data
  , "faculty_names".data
  , "campus".data
  , "tag_names".data
  , "course_category".data
  , "instruction_language".data
  , "note".data ]

/-- Embedding of `TextbookRecord.to_csv_row`. -/
def TextbookRecord.to_csv_row (r : TextbookRecord) : List Str :=
  [ r.textbook_title
  , r.textbook_title_reading
  , r.authors
  , r.publisher
  , r.publication_year
  , r.isbn
  , r.course_title
  , r.course_code
  , r.academic_year
  , r.term
  , r.schedule
  , r.classroom
  , r.credits
  , joinSep commaSep (r.instructors.getD [])
  , joinSep commaSep r.faculty_names
  , r.campus
  , r.tag_names
  , r.course_category
  , r.instruction_language
  , r.note ]

/-- The separator used between appended note fragments. -/
def noteSep : Str := " / ".data

/-- Embedding of `append_note`, as a pure function from the existing
note and the addition to the new note: the addition is appended only
when non-empty and not already a substring, joined with `" / "` when
the note is non-empty. -/
def append_note (note addition : Str) : Str :=
  if addition = [] then note
  else if addition <:+: note then note
  else if note = [] then addition
  else note ++ noteSep ++ addition

/-- The label the alias pass puts in front of the other titles. -/
def aliasNoteHead : Str := "別名称: ".data

/-- The label the faculty-scope pass puts in front of the faculty list. -/
def scopeNoteHead : Str := "複数学部向け: ".data

/-- The fixed auto-classification note of the faculty-scope pass. -/
def autoGenEdNote : Str := "教養・共通科目 (自動判定)".data

/-- The separator used inside the faculty-scope note. -/
def commaSpaceSep : Str := ", ".data

/-- Titles grouped by course code (`titles_by_code` in
`annotate_aliases`): the set of course titles of the records carrying
the given course code, modelled as a duplicate-free list. -/
def titlesFor (records : List TextbookRecord) (code : Str) : List Str :=
  (((records.filter (fun r => r.course_code = code)).map (fun r => r.course_title))).dedup

/-- The note fragment the alias pass computes for one record from the
whole batch, `none` when nothing is to be appended. -/
def aliasAddition (records : List TextbookRecord) (r : TextbookRecord) : Option Str :=
  if r.course_code = [] then none
  else
    let alias_titles := titlesFor records r.course_code
    if alias_titles.length ≤ 1 then none
    else
      let other_titles := pySortedSet (alias_titles.filter (fun t => t ≠ r.course_title))
      if other_titles = [] then none
      else some (aliasNoteHead ++ joinSep noteSep other_titles)

/-- Action of the alias pass on one record, given the whole batch. -/
def annotate_record_alias (records : List TextbookRecord) (r : TextbookRecord) : TextbookRecord :=
  match aliasAddition records r with
  | none => r
  | some a => { r with note := append_note r.note a }

/-- Embedding of `annotate_aliases` (pure: returns the updated batch). -/
def annotate_aliases (records : List TextbookRecord) : List TextbookRecord :=
  records.map (annotate_record_alias records)

/-- First conditional append of the faculty-scope pass: list the
distinct faculties when there are more than one. -/
def scopeStage1 (r : TextbookRecord) : TextbookRecord :=
  if 1 < (pySortedSet r.faculty_names).length then
    { r with note := append_note r.note (scopeNoteHead ++ joinSep commaSpaceSep (pySortedSet r.faculty_names)) }
  else r

/-- Second conditional append of the faculty-scope pass: the fixed
auto-classification note for general-education records. -/
def scopeStage2 (r : TextbookRecord) : TextbookRecord :=
  if r.course_category = genEdStr then
    { r with note := append_note r.note autoGenEdNote }
  else r

/-- Action of the faculty-scope pass on one record: the two sequential
conditional appends. -/
def annotate_record_scope (r : TextbookRecord) : TextbookRecord :=
  scopeStage2 (scopeStage1 r)

/-- Embedding of `annotate_faculty_scope` (pure: returns the updated
batch). -/
def annotate_faculty_scope (records : List TextbookRecord) : List TextbookRecord :=
  records.map annotate_record_scope

/-- Model of a parsed HTML node as the scraper observes it through
BeautifulSoup: an element with tag name, optional `id` attribute, class
list and children, or a text node. -/
inductive Node : Type
  | elem (tag : Str) (idAttr : Option Str) (classes : List Str) (children : List Node)
  | text (s : Str)

mutual

/-- Document-order (pre-order) traversal: the node followed by its
descendants, which is BeautifulSoup's `next_elements` order. -/
def Node.preorder : Node → List Node
  | .text s => [Node.text s]
  | .elem t i cs ch => Node.elem t i cs ch :: preorderList ch

/-- Pre-order traversal of a forest. -/
def preorderList : List Node → List Node
  | [] => []
  | n :: ns => n.preorder ++ preorderList ns

end

/-- Descendants of a node in document order (excluding the node
itself), as searched by `find_all` and `find`. -/
def Node.descendants : Node → List Node
  | .text _ => []
  | .elem _ _ _ ch => preorderList ch

mutual

/-- Text fragments of a subtree in document order. -/
def Node.strings : Node → List Str
  | .text s => [s]
  | .elem _ _ _ ch => stringsList ch

/-- Text fragments of a forest. -/
def stringsList : List Node → List Str
  | [] => []
  | n :: ns => n.strings ++ stringsList ns

end

/-- Embedding of `get_text(strip=True)`: each text fragment of the
subtree is stripped and the results are concatenated (empty fragments
vanish in the concatenation). -/
def getTextStrip (n : Node) : Str :=
  (n.strings.map strip).foldr (fun a b => a ++ b) []

/-- Embedding of BeautifulSoup's `.string`: the text of the node when
it wraps exactly one string (possibly through a chain of single-child
elements), `none` otherwise. -/
def Node.nodeString : Node → Option Str
  | .text s => some s
  | .elem _ _ _ [c] => c.nodeString
  | .elem _ _ _ _ => none

/-- Tag-name test for element nodes. -/
def Node.hasTag (n : Node) (t : Str) : Bool :=
  match n with
  | .elem tg _ _ _ => tg = t
  | .text _ => false

/-- Element-node test (text nodes are not returned by tag searches and
do not offer `get_text` to the `find_next` predicate used by the
scraper). -/
def Node.isElem : Node → Bool
  | .elem _ _ _ _ => true
  | .text _ => false

/-- Embedding of `find_all(tag)`: descendants carrying the tag, in
document order. -/
def Node.findAllTag (n : Node) (t : Str) : List Node :=
  n.descendants.filter (fun m => m.hasTag t)

/-- Tag and attribute names used by the scraper. -/
def tableTag : Str := "table".data

/-- The `tr` tag. -/
def trTag : Str := "tr".data

/-- The `td` tag. -/
def tdTag : Str := "td".data

/-- The `th` tag. -/
def thTag : Str := "th".data

/-- The `h3` tag. -/
def h3Tag : Str := "h3".data

/-- The id in the course-table CSS selector. -/
def syllabusItemsId : Str := "table-syllabusitems".data

/-- The class in the course-table CSS selector. -/
def stdlistClass : Str := "stdlist".data

/-- Test for a `table` element with class `stdlist`. -/
def isStdlistTable : Node → Bool
  | .elem t _ cs _ => decide (t = tableTag) && cs.contains stdlistClass
  | .text _ => false

mutual

/-- First `table.stdlist` element in document order having a strict
ancestor with id `table-syllabusitems`: the CSS selector
`#table-syllabusitems table.stdlist` as run by `select_one`.  The flag
records whether an ancestor with the id has been passed. -/
def selectCourseTable (inside : Bool) : Node → Option Node
  | .text _ => none
  | .elem t i cs ch =>
    if inside && isStdlistTable (.elem t i cs ch) then some (.elem t i cs ch)
    else selectCourseTableList (inside || decide (i = some syllabusItemsId)) ch

/-- Worker of `selectCourseTable` over a forest. -/
def selectCourseTableList (inside : Bool) : List Node → Option Node
  | [] => none
  | n :: ns =>
    match selectCourseTable inside n with
    | some r => some r
    | none => selectCourseTableList inside ns

end

/-- Section-header test used by `extract_section_text`: an `h3` or `th`
element whose `.string` contains one of the label literals of the
regular expression. -/
def isSectionHeader (labels : List Str) (n : Node) : Bool :=
  (n.hasTag h3Tag || n.hasTag thTag) &&
    (match n.nodeString with
     | some s => labels.any (fun l => decide (l <:+: s))
     | none => false)

/-- Worker of `extract_section_text`: walk the document order; at each
matching header take the next element node and return its stripped
text when non-empty, otherwise keep scanning for further headers. -/
def sectionGo (labels : List Str) : List Node → Str
  | [] => []
  | n :: rest =>
    if isSectionHeader labels n then
      match rest.find? Node.isElem with
      | some m =>
        let t := getTextStrip m
        if t = [] then sectionGo labels rest else t
      | none => sectionGo labels rest
    else sectionGo labels rest

/-- Embedding of `extract_section_text`. -/
def extract_section_text (soup : Node) (labels : List Str) : Str :=
  sectionGo labels soup.descendants

/-- Embedding of `normalize_name_list`: split on Japanese comma, ASCII
comma or whitespace runs, empty tokens dropped. -/
def normalize_name_list (value : Str) : List Str :=
  if value = [] then []
  else splitRuns (fun c => c = '、' || c = ',' || isSpace c) (strip value)

/-- Embedding of `normalize_instructor_list`: split on comma and slash
variants, items trimmed, empty items dropped. -/
def normalize_instructor_list (value : Str) : List Str :=
  if value = [] then []
  else
    ((splitRuns (fun c => c = '、' || c = ',' || c = '/' || c = '／') (strip value)).map strip).filter
      (fun s => s ≠ [])

/-- Labels of the campus section header. -/
def campusLabels : List Str := [ "キャンパス".data ]

/-- Labels of the classroom section header. -/
def classroomLabels : List Str :=
  [ "授業施設".data, "教室".data, "教場".data, "教室名".data ]

/-- Labels of the instruction-language section header. -/
def languageLabels : List Str :=
  [ "使用言語".data, "Language of instruction".data, "使用言語等".data, "使用される言語".data ]

/-- Error message when the course table is missing. -/
def courseTableMsg : Str := "Could not locate course metadata table in HTML page".data

/-- Error message when the course table has fewer than two rows. -/
def rowsMsg : Str := "Course metadata table does not contain expected rows".data

/-- Error message when the data row of the course table has no cell. -/
def cellsMsg : Str := "Course metadata row missing expected columns".data

/-- Embedding of `extract_course_metadata`; raised `ValueError`s are
modelled as `Except.error`. -/
def extract_course_metadata (soup : Node) : Except Str CourseMetadata :=
  match selectCourseTable false soup with
  | none => .error courseTableMsg
  | some course_table =>
    match course_table.findAllTag trTag with
    | _ :: r1 :: _ =>
      let cells := (r1.findAllTag tdTag).map getTextStrip
      if cells.length < 1 then .error cellsMsg
      else
        let getCell := fun (i : Nat) => cells.getD i []
        let idPair := parse_course_identifier (getCell 0)
        .ok
          { course_code := idPair.1
            course_title := idPair.2
            academic_year := getCell 1
            term := getCell 2
            schedule := getCell 3
            campus := extract_section_text soup campusLabels
            classroom := extract_section_text soup classroomLabels
            faculties := normalize_name_list (getCell 4)
            instructors := normalize_instructor_list (getCell 5)
            credits := if 6 < cells.length then getCell 6 else []
            instruction_language := extract_section_text soup languageLabels }
    | _ => .error rowsMsg

/-- Canonical textbook-column fields, the closed set of string keys the
scraper stores in its per-row `values` dict. -/
inductive TBField : Type
  | title
  | reading
  | authors
  | publisher
  | isbn
  | note
deriving DecidableEq

/-- Embedding of `normalize_textbook_header`: map a header label to a
canonical field, keyword sets checked in a fixed priority order. -/
def normalize_textbook_header (label : Str) : Option TBField :=
  let value := strip label
  if value = [] then none
  else
    let lower := lowerStr value
    if ("書名".data <:+: value) ∨ ("タイトル".data <:+: value) ∨ ("name".data <:+: lower) then
      some .title
    else if ("読み".data <:+: value) ∨ ("フリガナ".data <:+: value) ∨ ("ふりがな".data <:+: value) then
      some .reading
    else if ("著者".data <:+: value) ∨ ("編者".data <:+: value) ∨ ("author".data <:+: lower) then
      some .authors
    else if ("出版社".data <:+: value) ∨ ("publisher".data <:+: lower) then
      some .publisher
    else if ("isbn".data <:+: lower) then
      some .isbn
    else if ("備考".data <:+: value) ∨ ("補足".data <:+: value) ∨ ("メモ".data <:+: value)
        ∨ ("使用頻度".data <:+: value) ∨ ("note".data <:+: lower) then
      some .note
    else none

/-- One raw textbook entry as emitted by the Textbook Table Extractor. -/
structure RawTextbookEntry where
  title : Str
  reading : Str
  authors : Str
  publisher : Str
  isbn : Str
  note : Str
deriving DecidableEq

/-- Lookup in the per-row `values` dict (first binding wins, so the
most recent insertion is seen); missing keys give the empty string as
`values.get(key, "")` does. -/
def dictGet (d : List (TBField × Str)) (k : TBField) : Str :=
  match d.find? (fun p => decide (p.1 = k)) with
  | some p => p.2
  | none => []

/-- Key-presence test for the per-row `values` dict. -/
def dictHas (d : List (TBField × Str)) (k : TBField) : Bool :=
  (d.find? (fun p => decide (p.1 = k))).isSome

/-- `values[key] = text`: unconditional insertion (overwrites). -/
def dictInsert (d : List (TBField × Str)) (k : TBField) (v : Str) : List (TBField × Str) :=
  (k, v) :: d

/-- `values.setdefault(key, text)`: insert only when absent. -/
def dictSetdefault (d : List (TBField × Str)) (k : TBField) (v : Str) : List (TBField × Str) :=
  if dictHas d k then d else (k, v) :: d

/-- Fixed positional fallback of the row loop: column 0 is the title,
1 the authors, 2 the publisher, 3 the isbn, 4 the note, later columns
ignored; a value already set is never overwritten. -/
def positionalInsert (d : List (TBField × Str)) (i : Nat) (v : Str) : List (TBField × Str) :=
  if i = 0 then dictSetdefault d .title v
  else if i = 1 then dictSetdefault d .authors v
  else if i = 2 then dictSetdefault d .publisher v
  else if i = 3 then dictSetdefault d .isbn v
  else if i = 4 then dictSetdefault d .note v
  else d

/-- Worker of `buildValues`: the scraper's per-row cell loop, carrying
the running column index. -/
def buildValuesGo (hm : List (Option TBField)) : Nat → List (TBField × Str) → List Node →
    List (TBField × Str)
  | _, acc, [] => acc
  | i, acc, c :: cs =>
    let txt := getTextStrip c
    let acc2 :=
      match hm.getD i none with
      | some k => dictInsert acc k txt
      | none => positionalInsert acc i txt
    buildValuesGo hm (i + 1) acc2 cs

/-- The `values` dict the scraper builds for one data row, given the
header map. -/
def buildValues (hm : List (Option TBField)) (cells : List Node) : List (TBField × Str) :=
  buildValuesGo hm 0 [] cells

/-- Cells of a table row: `row.find_all(["td", "th"])`. -/
def rowCells (row : Node) : List Node :=
  row.descendants.filter (fun n => n.hasTag tdTag || n.hasTag thTag)

/-- Resolved title of a data row: the stripped `title` value of the
row's `values` dict. -/
def resolvedRowTitle (hm : List (Option TBField)) (row : Node) : Str :=
  strip (dictGet (buildValues hm (rowCells row)) .title)

/-- Entry produced from a data row given the header map: `none` when
the row has no cells or its resolved title is empty (the scraper's two
`continue` branches). -/
def rowEntry (hm : List (Option TBField)) (row : Node) : Option RawTextbookEntry :=
  let cells := rowCells row
  if cells.isEmpty then none
  else
    let values := buildValues hm cells
    let title := strip (dictGet values .title)
    if title = [] then none
    else
      some
        { title := title
          reading := dictGet values .reading
          authors := dictGet values .authors
          publisher := dictGet values .publisher
          isbn := dictGet values .isbn
          note := dictGet values .note }

/-- The local term for textbook matched against `h3` headings. -/
def textbookKeyword : Str := "教科書".data

/-- Test for the textbook heading: an `h3` whose `.string` contains the
textbook keyword. -/
def isTextbookHeading (n : Node) : Bool :=
  n.hasTag h3Tag &&
    (match n.nodeString with
     | some s => decide (textbookKeyword <:+: s)
     | none => false)

/-- Whether a document contains a textbook heading at all. -/
def headingFound (soup : Node) : Bool :=
  soup.descendants.any isTextbookHeading

/-- Worker locating the textbook table: at the first textbook heading,
take the first `table` element after it in document order. -/
def findAfterHeading : List Node → Option Node
  | [] => none
  | n :: rest =>
    if isTextbookHeading n then rest.find? (fun m => m.hasTag tableTag)
    else findAfterHeading rest

/-- The textbook table of a document, when present. -/
def textbookTable (soup : Node) : Option Node :=
  findAfterHeading soup.descendants

/-- All rows of the textbook table (empty when there is no table). -/
def textbookRows (soup : Node) : List Node :=
  match textbookTable soup with
  | none => []
  | some table => table.findAllTag trTag

/-- Header map of the textbook table: when the first row contains a
header-style (`th`) cell, each of its cells is mapped through
`normalize_textbook_header`; otherwise the map is empty. -/
def textbookHeaderMap (soup : Node) : List (Option TBField) :=
  match textbookRows soup with
  | [] => []
  | r0 :: _ =>
    let firstCells := rowCells r0
    if firstCells.any (fun c => c.hasTag thTag) then
      firstCells.map (fun c => normalize_textbook_header (getTextStrip c))
    else []

/-- Data rows of the textbook table: all rows but the header row when a
header row is present, all rows otherwise. -/
def textbookDataRows (soup : Node) : List Node :=
  match textbookRows soup with
  | [] => []
  | r0 :: rest =>
    if (rowCells r0).any (fun c => c.hasTag thTag) then rest else r0 :: rest

/-- Embedding of `extract_textbooks`: the row loop with its two
`continue` branches is a `filterMap` of `rowEntry` over the data rows. -/
def extract_textbooks (soup : Node) : List RawTextbookEntry :=
  (textbookDataRows soup).filterMap (rowEntry (textbookHeaderMap soup))

/-- Fallback course title used when both title and code are empty. -/
def untitledCourse : Str := "Untitled Course".data

/-- The tags of one record before sorting: the per-course base tags
plus the per-textbook `international-student` override driven by the
textbook note (`record_tags` in `build_records`; the `set` built there
from the sorted base tags has the same elements as the unsorted tag
collection). -/
def recordTagList (category : Str) (faculty_names : List Str) (course_title : Str)
    (instruction_language : Str) (note : Str) : List Str :=
  deriveTagList category faculty_names course_title instruction_language
    ++ (if detect_international_course note then [intlStudentStr] else [])

/-- Embedding of `build_records`.  The record constructor passes
exactly the fields the source passes: `isbn` and `publication_year`
are not among them and keep their dataclass defaults. -/
def build_records (soup : Node) : Except Str (List TextbookRecord) :=
  match extract_course_metadata soup with
  | .error e => .error e
  | .ok metadata =>
    let textbooks := extract_textbooks soup
    let resolved_course_title :=
      if metadata.course_title ≠ [] then metadata.course_title
      else if metadata.course_code ≠ [] then metadata.course_code
      else untitledCourse
    let course_category := determine_course_category metadata.faculties resolved_course_title
    .ok
      (textbooks.map (fun tb =>
        { course_code := metadata.course_code
          course_title := resolved_course_title
          campus := metadata.campus
          faculty_names := metadata.faculties
          textbook_title := tb.title
          textbook_title_reading := tb.reading
          authors := tb.authors
          publisher := tb.publisher
          note := tb.note
          tag_names := joinSep commaSep (pySortedSet (recordTagList course_category
            metadata.faculties resolved_course_title metadata.instruction_language tb.note))
          course_category := course_category
          instruction_language := metadata.instruction_language
          academic_year := metadata.academic_year
          term := metadata.term
          schedule := metadata.schedule
          classroom := metadata.classroom
          credits := metadata.credits
          instructors := some metadata.instructors }))

/-- Error message of `write_csv` on an empty batch. -/
def emptyCsvMsg : Str :=
  "No textbook records found. Ensure the input HTML contains textbook tables.".data

/-- Embedding of `write_csv`: the emitted rows (header first), or the
abort on an empty batch. -/
def write_csv (records : List TextbookRecord) : Except Str (List (List Str)) :=
  if records = [] then .error emptyCsvMsg
  else .ok (CSV_HEADER :: records.map TextbookRecord.to_csv_row)

/-- Table cell helper for concrete test documents. -/
def mkTd (s : Str) : Node := .elem tdTag none [] [ .text s ]

/-- Header cell helper for concrete test documents. -/
def mkTh (s : Str) : Node := .elem thTag none [] [ .text s ]

/-- Table row helper for concrete test documents. -/
def mkTr (cells : List Node) : Node := .elem trTag none [] cells

/-- A well-formed syllabus document: course-metadata table with a
header row and a data row, a campus section, and a textbook table with
a header row, one complete textbook row (isbn `123`) and one row with
an empty title. -/
def sampleDoc : Node :=
  .elem ("html".data) none []
    [ .elem ("div".data) (some ("table-syllabusitems".data)) []
        [ .elem tableTag none [ stdlistClass ]
            [ mkTr [ mkTh ("科目".data), mkTh ("年度".data) ]
            , mkTr [ mkTd ("ABC123：Intro to CS".data), mkTd ("2024".data), mkTd ("春".data)
                   , mkTd ("月1".data), mkTd ("理学部、工学部".data), mkTd ("山田/鈴木".data)
                   , mkTd ("2".data) ] ] ]
    , .elem thTag none [] [ .text ("キャンパス".data) ]
    , .elem tdTag none [] [ .text ("三田".data) ]
    , .elem h3Tag none [] [ .text textbookKeyword ]
    , .elem tableTag none []
        [ mkTr [ mkTh ("書名".data), mkTh ("著者".data), mkTh ("出版社".data)
               , mkTh ("ISBN".data), mkTh ("備考".data) ]
        , mkTr [ mkTd ("Algorithms".data), mkTd ("A. Author".data), mkTd ("Pub".data)
               , mkTd ("123".data), mkTd [] ]
        , mkTr [ mkTd [], mkTd ("B".data), mkTd [], mkTd [], mkTd [] ] ] ]

/-- The records the Record Builder produces for `sampleDoc`. -/
def sampleRecords : List TextbookRecord :=
  match build_records sampleDoc with
  | .ok rs => rs
  | .error _ => []

/-- A document whose course table is present with two rows, but whose
second row contains no `td` cell. -/
def malformedRowDoc : Node :=
  .elem ("html".data) none []
    [ .elem ("div".data) (some ("table-syllabusitems".data)) []
        [ .elem tableTag none [ stdlistClass ]
            [ mkTr [ mkTh ("a".data) ], mkTr [ mkTh ("b".data) ] ] ] ]

/-- A document with no textbook heading at all. -/
def noTextbookDoc : Node :=
  .elem ("html".data) none [] [ .elem ("p".data) none [] [ .text ("x".data) ] ]

/-- C3 counterexample: on the single-token input `Seminar`, which
matches neither the colon pattern nor the two-part whitespace split,
`parse_course_identifier` returns the trimmed string as the CODE with
an empty title, not (as the claim states) as the title with an empty
code. -/
theorem C3_counterexample :
    parse_course_identifier ("Seminar".data) = (("Seminar".data), ([] : Str)) ∧
    parse_course_identifier ("Seminar".data) ≠ (([] : Str), ("Seminar".data)) := by
  decide

/-- C3 (amended): `parse_course_identifier` never raises (it is a total
function) and follows the three-stage cascade: if the colon pattern
matches it returns the leading token with the trimmed remainder; else
if the single whitespace split yields exactly two parts it returns them
trimmed as (code, title); else it returns the whole trimmed string as
the code with an empty title. -/
theorem C3_parse_course_identifier_cases (value : Str) :
    (∀ code title, colonSplit value = some (code, title) →
      parse_course_identifier value = (code, strip title)) ∧
    (colonSplit value = none → ∀ a b, pySplit1 value = [a, b] →
      parse_course_identifier value = (strip a, strip b)) ∧
    (colonSplit value = none → (∀ a b, pySplit1 value ≠ [a, b]) →
      parse_course_identifier value = (strip value, [])) := by
  refine ⟨?_, ?_, ?_⟩
  · intro code title h
    simp [parse_course_identifier, h]
  · intro h a b h2
    simp [parse_course_identifier, h, h2]
  · intro h h2
    unfold parse_course_identifier
    rw [h]
    cases h3 : pySplit1 value with
    | nil => rfl
    | cons a t =>
      cases t with
      | nil => rfl
      | cons b t2 =>
        cases t2 with
        | nil => exact absurd h3 (h2 a b)
        | cons c t3 => rfl

/-- Witness for C3: the colon branch at a concrete input. -/
theorem C3_witness :
    parse_course_identifier ("CS101：Intro to Programming".data) =
      (("CS101".data), ("Intro to Programming".data)) := by
  have h := (C3_parse_course_identifier_cases ("CS101：Intro to Programming".data)).1
    ("CS101".data) ("Intro to Programming".data) (by decide)
  exact h.trans (by decide)

/-- First-match evaluation of an ordered rule table: the result of the
first rule whose condition holds, or the default. -/
def firstMatch : List (Bool × Str) → Str → Str
  | [], dflt => dflt
  | (c, r) :: rest, dflt => if c then r else firstMatch rest dflt

/-- The spec's five classification rules as an ordered rule table with
first-match-wins evaluation (rule 5 is the default result).  Faculty
names are considered after the stripping/empty-drop normalization the
code applies to them. -/
def categoryCascade (faculty_names : List Str) (course_title : Str) : Str :=
  let normalized := (faculty_names.map strip).filter (fun n => n ≠ [])
  firstMatch
    [ (decide (normalized = []), genEdStr)
    , (normalized.any (fun f => GENERAL_FACULTY_KEYWORDS.any (fun k => decide (k <:+: f))), genEdStr)
    , (decide (3 ≤ normalized.dedup.length), genEdStr)
    , (GENERAL_TITLE_KEYWORDS.any (fun k => decide (k <:+: course_title)), genEdStr) ]
    facultyCourseStr

/-- C4: `determine_course_category` is exactly the ordered five-rule
cascade with first match winning; in particular three distinct plain
faculty names give `general-education`, and an empty faculty list gives
`general-education` for every title. -/
theorem C4_determine_course_category_cascade :
    (∀ faculty_names course_title,
      determine_course_category faculty_names course_title =
        categoryCascade faculty_names course_title) ∧
    determine_course_category [ "Dept A".data, "Dept B".data, "Dept C".data ] ("Any Title".data) =
      genEdStr ∧
    (∀ course_title, determine_course_category [] course_title = genEdStr) := by
  refine ⟨?_, by decide, ?_⟩
  · intro fs title
    simp only [determine_course_category, categoryCascade, firstMatch, decide_eq_true_eq]
  · intro title
    simp [determine_course_category]

/-- C5: `derive_tags` always returns a lexicographically sorted
sequence (hence two calls on the same input yield identical ordered
output), and its underlying set contains exactly: the category; the
`multi-faculty` tag iff more than one distinct non-empty faculty name
is present and the category is not `general-education`; the
`international-student` tag iff the title matches the international
detector; and a `lang:` tag iff the language normalizer resolves one. -/
theorem C5_derive_tags_sorted_members (category : Str) (faculty_names : List Str)
    (course_title instruction_language : Str) :
    List.Sorted (fun a b => a ≤ b)
      (derive_tags category faculty_names course_title instruction_language) ∧
    ∀ x, x ∈ derive_tags category faculty_names course_title instruction_language ↔
      (x = category ∨
       (x = multiFacultyStr ∧ 1 < distinctNonEmpty faculty_names ∧ category ≠ genEdStr) ∨
       (x = intlStudentStr ∧ detect_international_course course_title = true) ∨
       (∃ t, normalize_language_tag instruction_language = some t ∧ x = langTagHead ++ t)) := by
  constructor
  · exact List.sorted_insertionSort _ _
  · intro x
    unfold derive_tags pySortedSet
    rw [(List.perm_insertionSort _ _).mem_iff, List.mem_dedup]
    unfold deriveTagList
    cases h : normalize_language_tag instruction_language with
    | none =>
      split_ifs with h1 h2 <;>
        simp_all [List.mem_append] <;> tauto
    | some t =>
      split_ifs with h1 h2 <;>
        simp_all [List.mem_append] <;> tauto

/-- Appending the empty fragment is a no-op. -/
theorem append_note_nil_addition (n : Str) : append_note n [] = n := by
  simp [append_note]

/-- The old note survives as an infix of the appended note. -/
theorem self_infix_append_note (n a : Str) : n <:+: append_note n a := by
  unfold append_note
  split_ifs with h1 h2 h3
  · exact List.infix_refl n
  · exact List.infix_refl n
  · exact h3 ▸ List.nil_infix
  · rw [List.append_assoc]
    exact (List.prefix_append n (noteSep ++ a)).isInfix

/-- A non-empty fragment is an infix of the note it was appended to. -/
theorem addition_infix_append_note (n a : Str) (h : a ≠ []) : a <:+: append_note n a := by
  unfold append_note
  split_ifs with h1 h2 h3
  · exact absurd h1 h
  · exact h2
  · exact List.infix_refl a
  · exact (List.suffix_append (n ++ noteSep) a).isInfix

/-- A fragment already present as a substring is never appended. -/
theorem append_note_absorbed {n a : Str} (h : a <:+: n) : append_note n a = n := by
  unfold append_note
  by_cases h1 : a = []
  · rw [if_pos h1]
  · rw [if_neg h1, if_pos h]

/-- A list with a non-empty left part is non-empty. -/
theorem append_left_ne_nil {h t : Str} (hh : h ≠ []) : h ++ t ≠ [] := by
  rw [Ne, List.append_eq_nil]
  rintro ⟨h1, _⟩
  exact hh h1

/-- Appending the same fragment twice equals appending it once. -/
theorem append_note_idem (n a : Str) : append_note (append_note n a) a = append_note n a := by
  by_cases h : a = []
  · subst h
    rw [append_note_nil_addition, append_note_nil_addition]
  · exact append_note_absorbed (addition_infix_append_note n a h)

/-- Appending more fragments preserves existing substrings. -/
theorem infix_append_note_mono {x n : Str} (a : Str) (h : x <:+: n) :
    x <:+: append_note n a :=
  h.trans (self_infix_append_note n a)

/-- The alias pass never changes a record's course code. -/
theorem annotate_record_alias_code (rs : List TextbookRecord) (r : TextbookRecord) :
    (annotate_record_alias rs r).course_code = r.course_code := by
  unfold annotate_record_alias
  cases aliasAddition rs r <;> rfl

/-- The alias pass never changes a record's course title. -/
theorem annotate_record_alias_title (rs : List TextbookRecord) (r : TextbookRecord) :
    (annotate_record_alias rs r).course_title = r.course_title := by
  unfold annotate_record_alias
  cases aliasAddition rs r <;> rfl

/-- The alias addition depends on the record only through its code and
title and on the batch only through the title groups. -/
theorem aliasAddition_congr {rs rs' : List TextbookRecord} {r r' : TextbookRecord}
    (hcode : r'.course_code = r.course_code) (htitle : r'.course_title = r.course_title)
    (htf : ∀ c, titlesFor rs' c = titlesFor rs c) :
    aliasAddition rs' r' = aliasAddition rs r := by
  unfold aliasAddition
  simp only [hcode, htitle, htf]

/-- Mapping the alias pass over any list preserves the code-filtered
title list. -/
theorem filtered_titles_map_alias (rs0 rs : List TextbookRecord) (c : Str) :
    ((rs.map (annotate_record_alias rs0)).filter (fun r => r.course_code = c)).map
        (fun r => r.course_title)
      = (rs.filter (fun r => r.course_code = c)).map (fun r => r.course_title) := by
  induction rs with
  | nil => rfl
  | cons r rest ih =>
    simp only [List.map_cons, List.filter_cons, annotate_record_alias_code]
    by_cases h : r.course_code = c
    · simp [h, ih, annotate_record_alias_title]
    · simp [h, ih]

/-- The title groups of a batch are unchanged by the alias pass. -/
theorem titlesFor_map_alias (rs : List TextbookRecord) (c : Str) :
    titlesFor (annotate_aliases rs) c = titlesFor rs c := by
  unfold titlesFor annotate_aliases
  rw [filtered_titles_map_alias]

/-- Unfolding equation of the alias action. -/
theorem annotate_record_alias_eq (rs : List TextbookRecord) (r : TextbookRecord) :
    annotate_record_alias rs r =
      match aliasAddition rs r with
      | none => r
      | some a => { r with note := append_note r.note a } := rfl

/-- Applying the alias pass to an already-annotated record (relative to
the already-annotated batch) changes nothing. -/
theorem annotate_record_alias_stable (rs : List TextbookRecord) (r : TextbookRecord) :
    annotate_record_alias (annotate_aliases rs) (annotate_record_alias rs r)
      = annotate_record_alias rs r := by
  have hadd : aliasAddition (annotate_aliases rs) (annotate_record_alias rs r)
      = aliasAddition rs r :=
    aliasAddition_congr (annotate_record_alias_code rs r) (annotate_record_alias_title rs r)
      (fun c => titlesFor_map_alias rs c)
  rw [annotate_record_alias_eq (annotate_aliases rs) (annotate_record_alias rs r), hadd]
  cases h : aliasAddition rs r with
  | none => rfl
  | some a =>
    rw [annotate_record_alias_eq rs r, h]
    simp [append_note_idem]

/-- Stage 1 of the scope pass keeps the faculty list. -/
theorem scopeStage1_faculty (r : TextbookRecord) :
    (scopeStage1 r).faculty_names = r.faculty_names := by
  unfold scopeStage1
  split_ifs <;> rfl

/-- Stage 2 of the scope pass keeps the faculty list. -/
theorem scopeStage2_faculty (r : TextbookRecord) :
    (scopeStage2 r).faculty_names = r.faculty_names := by
  unfold scopeStage2
  split_ifs <;> rfl

/-- Stage 1 of the scope pass keeps the category. -/
theorem scopeStage1_category (r : TextbookRecord) :
    (scopeStage1 r).course_category = r.course_category := by
  unfold scopeStage1
  split_ifs <;> rfl

/-- Stage 2 of the scope pass keeps the category. -/
theorem scopeStage2_category (r : TextbookRecord) :
    (scopeStage2 r).course_category = r.course_category := by
  unfold scopeStage2
  split_ifs <;> rfl

/-- After stage 1 fired, its note fragment is present. -/
theorem scopeStage1_note_present (r : TextbookRecord)
    (h : 1 < (pySortedSet r.faculty_names).length) :
    scopeNoteHead ++ joinSep commaSpaceSep (pySortedSet r.faculty_names)
      <:+: (scopeStage1 r).note := by
  unfold scopeStage1
  rw [if_pos h]
  exact addition_infix_append_note _ _ (append_left_ne_nil (by decide))

/-- Stage 2 of the scope pass preserves substrings of the note. -/
theorem scopeStage2_note_mono {x : Str} (r : TextbookRecord) (h : x <:+: r.note) :
    x <:+: (scopeStage2 r).note := by
  unfold scopeStage2
  split_ifs
  · show x <:+: append_note r.note autoGenEdNote
    exact infix_append_note_mono _ h
  · exact h

/-- Stage 1 changes nothing on a record the scope pass has already
processed. -/
theorem scopeStage1_after (r : TextbookRecord) :
    scopeStage1 (annotate_record_scope r) = annotate_record_scope r := by
  have hf : (annotate_record_scope r).faculty_names = r.faculty_names := by
    unfold annotate_record_scope
    rw [scopeStage2_faculty, scopeStage1_faculty]
  unfold scopeStage1
  split_ifs with c1
  · have h1 : scopeNoteHead ++ joinSep commaSpaceSep
        (pySortedSet (annotate_record_scope r).faculty_names) <:+:
        (annotate_record_scope r).note := by
      rw [hf]
      unfold annotate_record_scope
      exact scopeStage2_note_mono _ (scopeStage1_note_present r (hf ▸ c1))
    rw [append_note_absorbed h1]
  · rfl

/-- Stage 2 changes nothing on a record the scope pass has already
processed. -/
theorem scopeStage2_after (r : TextbookRecord) :
    scopeStage2 (annotate_record_scope r) = annotate_record_scope r := by
  have hc : (annotate_record_scope r).course_category = r.course_category := by
    unfold annotate_record_scope
    rw [scopeStage2_category, scopeStage1_category]
  unfold scopeStage2
  split_ifs with c2
  · have h2 : autoGenEdNote <:+: (annotate_record_scope r).note := by
      unfold annotate_record_scope scopeStage2
      rw [scopeStage1_category, if_pos (hc.symm.trans c2)]
      show autoGenEdNote <:+: append_note (scopeStage1 r).note autoGenEdNote
      exact addition_infix_append_note _ _ (by decide)
    rw [append_note_absorbed h2]
  · rfl

/-- The faculty-scope pass changes nothing when applied twice to the
same record. -/
theorem annotate_record_scope_idem (r : TextbookRecord) :
    annotate_record_scope (annotate_record_scope r) = annotate_record_scope r := by
  show scopeStage2 (scopeStage1 (annotate_record_scope r)) = annotate_record_scope r
  rw [scopeStage1_after, scopeStage2_after]

set_option maxHeartbeats 1000000 in
/-- C8: both Batch Annotator passes are idempotent: the alias pass and
the faculty-scope pass each leave every record (in particular its note
field) unchanged when run a second time over the same batch, because a
note fragment is appended only when not already a substring of the
existing note. -/
theorem C8_annotators_idempotent (records : List TextbookRecord) :
    annotate_aliases (annotate_aliases records) = annotate_aliases records ∧
    annotate_faculty_scope (annotate_faculty_scope records) = annotate_faculty_scope records := by
  constructor
  · unfold annotate_aliases
    rw [List.map_map]
    exact List.map_congr_left (fun r _ => annotate_record_alias_stable records r)
  · unfold annotate_faculty_scope
    rw [List.map_map]
    exact List.map_congr_left (fun r _ => annotate_record_scope_idem r)

/-- Splitting a string at every comma (Python `s.split(",")`). -/
def splitComma : Str → List Str
  | [] => [[]]
  | c :: rest =>
    if c = ',' then [] :: splitComma rest
    else
      match splitComma rest with
      | h :: t => (c :: h) :: t
      | [] => [[c]]

/-- Every piece a run-splitter emits consists of characters outside the
class, provided the accumulator does. -/
theorem splitRunsAux_no_class (p : Char → Bool) :
    ∀ (s cur : Str), (∀ c, c ∈ cur → p c = false) →
      ∀ x ∈ splitRunsAux p cur s, ∀ c ∈ x, p c = false := by
  intro s
  induction s with
  | nil =>
    intro cur hcur x hx c hc
    unfold splitRunsAux at hx
    by_cases h : cur = []
    · rw [if_pos h] at hx
      cases hx
    · rw [if_neg h] at hx
      rw [List.mem_singleton.mp hx] at hc
      exact hcur c (List.mem_reverse.mp hc)
  | cons a rest ih =>
    intro cur hcur x hx c hc
    unfold splitRunsAux at hx
    by_cases hpa : p a = true
    · rw [if_pos hpa] at hx
      by_cases h : cur = []
      · rw [if_pos h] at hx
        exact ih [] (by intro d hd; cases hd) x hx c hc
      · rw [if_neg h] at hx
        rcases List.mem_cons.mp hx with h1 | h2
        · rw [h1] at hc
          exact hcur c (List.mem_reverse.mp hc)
        · exact ih [] (by intro d hd; cases hd) x h2 c hc
    · rw [if_neg hpa] at hx
      refine ih (a :: cur) ?_ x hx c hc
      intro d hd
      rcases List.mem_cons.mp hd with h1 | h2
      · rw [h1]
        exact Bool.not_eq_true (p a) ▸ hpa
      · exact hcur d h2

/-- Faculty names produced by `normalize_name_list` never contain a
comma. -/
theorem normalize_name_list_no_comma (value s : Str) (hs : s ∈ normalize_name_list value) :
    ',' ∉ s := by
  unfold normalize_name_list at hs
  split_ifs at hs
  · cases hs
  · intro hc
    have h := splitRunsAux_no_class _ _ [] (by intro d hd; cases hd) s hs ',' hc
    exact absurd h (by decide)

/-- The category is always one of the two fixed category strings. -/
theorem determine_course_category_cases (fs : List Str) (title : Str) :
    determine_course_category fs title = genEdStr ∨
    determine_course_category fs title = facultyCourseStr := by
  unfold determine_course_category
  dsimp only
  split_ifs <;> first | exact Or.inl rfl | exact Or.inr rfl

/-- The language normalizer only ever resolves one of six fixed tags. -/
theorem normalize_language_tag_cases {lang t : Str} (h : normalize_language_tag lang = some t) :
    t ∈ [("english".data), ("japanese".data), ("chinese".data), ("korean".data),
      ("french".data), ("german".data)] := by
  unfold normalize_language_tag at h
  dsimp only at h
  split_ifs at h <;> simp_all

/-- Membership in a conditional singleton. -/
theorem mem_ite_singleton {c : Prop} [Decidable c] {y x : Str}
    (h : x ∈ (if c then [y] else [])) : x = y := by
  split_ifs at h
  · exact List.mem_singleton.mp h
  · cases h

/-- Unfolding equation of `splitComma` on a non-empty string. -/
theorem splitComma_cons (c : Char) (rest : Str) :
    splitComma (c :: rest) =
      if c = ',' then [] :: splitComma rest
      else
        match splitComma rest with
        | h :: t => (c :: h) :: t
        | [] => [[c]] := rfl

/-- The comma-splitter is left inverse to the comma-join on comma-free
components. -/
theorem splitComma_no_comma {s : Str} (h : ',' ∉ s) : splitComma s = [s] := by
  induction s with
  | nil => rfl
  | cons c rest ih =>
    have hc : c ≠ ',' := by
      intro hcc
      exact h (hcc ▸ List.mem_cons_self c rest)
    rw [splitComma_cons, if_neg hc, ih (fun hm => h (List.mem_cons_of_mem c hm))]

/-- Splitting after a comma-free head peels the head off. -/
theorem splitComma_append {x : Str} (s : Str) (hx : ',' ∉ x) :
    splitComma (x ++ ',' :: s) = x :: splitComma s := by
  induction x with
  | nil =>
    show splitComma (',' :: s) = [] :: splitComma s
    rw [splitComma_cons, if_pos rfl]
  | cons c rest ih =>
    have hc : c ≠ ',' := by
      intro hcc
      exact hx (hcc ▸ List.mem_cons_self c rest)
    rw [List.cons_append, splitComma_cons, if_neg hc,
      ih (fun hm => hx (List.mem_cons_of_mem c hm))]

/-- Joining comma-free components with a comma and splitting again
recovers exactly the components. -/
theorem splitComma_joinSep {parts : List Str} (hne : parts ≠ [])
    (hcf : ∀ p ∈ parts, ',' ∉ p) :
    splitComma (joinSep commaSep parts) = parts := by
  induction parts with
  | nil => exact absurd rfl hne
  | cons x rest ih =>
    cases rest with
    | nil => exact splitComma_no_comma (hcf x (List.mem_cons_self x []))
    | cons y t =>
      rw [show joinSep commaSep (x :: y :: t) = (x ++ commaSep) ++ joinSep commaSep (y :: t)
        from rfl]
      rw [List.append_assoc]
      rw [show commaSep ++ joinSep commaSep (y :: t) = ',' :: joinSep commaSep (y :: t) from rfl]
      rw [splitComma_append _ (hcf x (List.mem_cons_self x (y :: t)))]
      rw [ih (by intro hyt; cases hyt) (fun p hp => hcf p (List.mem_cons_of_mem x hp))]

/-- C9: components of the comma-joined multi-value CSV fields never
contain a literal comma, and comma-joined comma-free components can be
split back unambiguously: every faculty name produced by the metadata
extractor's faculty-cell splitting is comma-free; every tag a record
carries (the classifier category, the derived tags, and the
per-textbook `international-student` override) is comma-free; and the
comma-join of any non-empty list of comma-free components splits back
into exactly those components. -/
theorem C9_no_comma_in_components :
    (∀ value s, s ∈ normalize_name_list value → ',' ∉ s) ∧
    (∀ fs title faculty_names course_title instruction_language note x,
      x ∈ recordTagList (determine_course_category fs title) faculty_names course_title
          instruction_language note → ',' ∉ x) ∧
    (∀ parts : List Str, parts ≠ [] → (∀ p ∈ parts, ',' ∉ p) →
      splitComma (joinSep commaSep parts) = parts) := by
  refine ⟨normalize_name_list_no_comma, ?_, fun parts h1 h2 => splitComma_joinSep h1 h2⟩
  intro fs title faculty_names course_title instruction_language note x hx
  unfold recordTagList deriveTagList at hx
  simp only [List.append_assoc, List.mem_append, List.mem_singleton] at hx
  rcases hx with h1 | h2 | h3 | h4 | h5
  · rcases determine_course_category_cases fs title with hc | hc <;>
      rw [h1, hc] <;> decide
  · rw [mem_ite_singleton h2]
    decide
  · rw [mem_ite_singleton h3]
    decide
  · rcases heq : normalize_language_tag instruction_language with _ | t
    · rw [heq] at h4
      cases h4
    · rw [heq] at h4
      rw [List.mem_singleton.mp h4]
      intro hc
      rcases List.mem_append.mp hc with hh | hh
      · revert hh
        decide
      · have ht := normalize_language_tag_cases heq
        simp only [List.mem_cons, List.not_mem_nil, or_false] at ht
        rcases ht with h | h | h | h | h | h <;> rw [h] at hh <;> revert hh <;> decide
  · rw [mem_ite_singleton h5]
    decide

/-- Witness for C9: concrete faculty-name, tag and round-trip
instances. -/
theorem C9_witness :
    (',' ∉ ("理学部".data)) ∧ (',' ∉ genEdStr) ∧
    splitComma (joinSep commaSep [ "a".data, "b".data ]) = [ "a".data, "b".data ] := by
  refine ⟨?_, ?_, ?_⟩
  · exact C9_no_comma_in_components.1 ("理学部、工学部".data) ("理学部".data) (by decide)
  · exact C9_no_comma_in_components.2.1 [] [] [] [] [] [] genEdStr (by decide)
  · exact C9_no_comma_in_components.2.2 [ "a".data, "b".data ] (by decide) (by decide)

/-- A concrete record used by the serializer witness. -/
def demoRecord : TextbookRecord :=
  { course_code := "C1".data
    course_title := "T".data
    campus := "K".data
    faculty_names := [ "F1".data, "F2".data ]
    textbook_title := "B".data
    instructors := some [ "I1".data, "I2".data ] }

/-- C2 counterexample: the fixed CSV header has 20 columns, not 19 (the
claim lists 20 names but asserts the count 19). -/
theorem C2_counterexample : CSV_HEADER.length = 20 ∧ ¬(CSV_HEADER.length = 19) := by
  decide

/-- C2 (amended): the serializer writes the fixed header of exactly 20
columns in the stated order, then one data row per record whose fields
appear in that same order, with the multi-valued instructors and
faculty_names fields joined by a plain comma. -/
theorem C2_header_and_row_order :
    CSV_HEADER =
      [ "textbook_title".data, "textbook_title_reading".data, "authors".data, "publisher".data,
        "publication_year".data, "isbn".data, "course_title".data, "course_code".data,
        "academic_year".data, "term".data, "schedule".data, "classroom".data, "credits".data,
        "instructors".data, "faculty_names".data, "campus".data, "tag_names".data,
        "course_category".data, "instruction_language".data, "note".data ] ∧
    (∀ r : TextbookRecord, TextbookRecord.to_csv_row r =
      [ r.textbook_title, r.textbook_title_reading, r.authors, r.publisher, r.publication_year,
        r.isbn, r.course_title, r.course_code, r.academic_year, r.term, r.schedule, r.classroom,
        r.credits, joinSep commaSep (r.instructors.getD []), joinSep commaSep r.faculty_names,
        r.campus, r.tag_names, r.course_category, r.instruction_language, r.note ] ∧
      (TextbookRecord.to_csv_row r).length = CSV_HEADER.length) ∧
    (∀ records : List TextbookRecord, records ≠ [] →
      write_csv records = .ok (CSV_HEADER :: records.map TextbookRecord.to_csv_row)) := by
  refine ⟨rfl, fun r => ⟨rfl, rfl⟩, fun records h => ?_⟩
  unfold write_csv
  rw [if_neg h]

/-- Witness for C2: the serializer output on a concrete one-record
batch. -/
theorem C2_witness :
    write_csv [demoRecord] = .ok (CSV_HEADER :: [demoRecord].map TextbookRecord.to_csv_row) :=
  C2_header_and_row_order.2.2 [demoRecord] (by decide)

/-- Structural condition under which metadata extraction succeeds: the
course table is found, has at least two rows, and its second row has at
least one `td` cell. -/
def metadataStructureOk (soup : Node) : Bool :=
  match selectCourseTable false soup with
  | none => false
  | some t =>
    match t.findAllTag trTag with
    | _ :: r1 :: _ => !(r1.findAllTag tdTag).isEmpty
    | _ => false

/-- Number of rows of the located course table (0 when absent). -/
def courseTableRowCount (soup : Node) : Nat :=
  match selectCourseTable false soup with
  | none => 0
  | some t => (t.findAllTag trTag).length

/-- C6 counterexample: in `malformedRowDoc` the course table is present
with two rows, yet metadata extraction fails (the second row has no
`td` cell), contradicting the claim that presence plus two rows always
yields a `CourseMetadata` without raising. -/
theorem C6_counterexample :
    (selectCourseTable false malformedRowDoc).isSome = true ∧
    2 ≤ courseTableRowCount malformedRowDoc ∧
    (extract_course_metadata malformedRowDoc).isOk = false := by
  decide

/-- C6 (amended): metadata extraction fails exactly when the course
table is absent, has fewer than two rows, or its second row contains no
`td` cell; in every other case it returns a `CourseMetadata` without
raising. -/
theorem C6_metadata_error_characterization (soup : Node) :
    (extract_course_metadata soup).isOk = metadataStructureOk soup := by
  unfold extract_course_metadata metadataStructureOk
  cases selectCourseTable false soup with
  | none => rfl
  | some t =>
    dsimp only
    cases t.findAllTag trTag with
    | nil => rfl
    | cons r0 rest =>
      cases rest with
      | nil => rfl
      | cons r1 rest2 =>
        dsimp only
        cases r1.findAllTag tdTag with
        | nil => rfl
        | cons c cs => rfl

/-- The entry a data row yields (the row loop body's dict construction),
independent of whether the row is skipped. -/
def mkRowEntry (hm : List (Option TBField)) (row : Node) : RawTextbookEntry :=
  let values := buildValues hm (rowCells row)
  { title := strip (dictGet values .title)
    reading := dictGet values .reading
    authors := dictGet values .authors
    publisher := dictGet values .publisher
    isbn := dictGet values .isbn
    note := dictGet values .note }

/-- A data row is skipped exactly when its resolved title is empty
after trimming (a row without cells resolves to the empty title). -/
theorem rowEntry_eq (hm : List (Option TBField)) (row : Node) :
    rowEntry hm row =
      if resolvedRowTitle hm row = [] then none else some (mkRowEntry hm row) := by
  unfold rowEntry resolvedRowTitle mkRowEntry
  dsimp only
  by_cases hcells : (rowCells row).isEmpty
  · rw [if_pos hcells]
    have hnil : rowCells row = [] := List.isEmpty_iff.mp hcells
    rw [hnil]
    rfl
  · rw [if_neg hcells]

/-- The row loop is a filter of the non-empty-title rows followed by
the per-row entry map. -/
theorem filterMap_rowEntry (hm : List (Option TBField)) (rows : List Node) :
    rows.filterMap (rowEntry hm) =
      (rows.filter (fun row => !decide (resolvedRowTitle hm row = []))).map (mkRowEntry hm) := by
  induction rows with
  | nil => rfl
  | cons r rs ih =>
    rw [List.filterMap_cons, List.filter_cons]
    by_cases h : resolvedRowTitle hm r = []
    · simp [rowEntry_eq, h, ih]
    · simp [rowEntry_eq, h, ih]

/-- A list with no textbook heading yields no table. -/
theorem findAfterHeading_none {l : List Node}
    (h : ∀ n ∈ l, isTextbookHeading n = false) : findAfterHeading l = none := by
  induction l with
  | nil => rfl
  | cons n rest ih =>
    have hn := h n (List.mem_cons_self n rest)
    unfold findAfterHeading
    rw [if_neg (by simp [hn])]
    exact ih (fun m hm => h m (List.mem_cons_of_mem n hm))

/-- C7: the Textbook Table Extractor returns the empty list (not an
error) when no textbook heading is present; in general its output is
exactly the data rows whose resolved title is non-empty after trimming,
in document order, each mapped to its entry — so rows with empty titles
are skipped and the entry count equals the count of non-empty-title
data rows. -/
theorem C7_extract_textbooks_shape (soup : Node) :
    (headingFound soup = false → extract_textbooks soup = []) ∧
    extract_textbooks soup =
      ((textbookDataRows soup).filter
        (fun row => !decide (resolvedRowTitle (textbookHeaderMap soup) row = []))).map
        (mkRowEntry (textbookHeaderMap soup)) ∧
    (extract_textbooks soup).length =
      ((textbookDataRows soup).filter
        (fun row => !decide (resolvedRowTitle (textbookHeaderMap soup) row = []))).length := by
  refine ⟨?_, filterMap_rowEntry _ _, ?_⟩
  · intro h
    have hnone : textbookTable soup = none := by
      unfold textbookTable
      apply findAfterHeading_none
      intro n hn
      unfold headingFound at h
      exact Bool.eq_false_iff.mpr ((List.any_eq_false.mp h) n hn)
    have h2 : textbookRows soup = [] := by
      unfold textbookRows
      rw [hnone]
    have h3 : textbookDataRows soup = [] := by
      unfold textbookDataRows
      rw [h2]
    unfold extract_textbooks
    rw [h3]
    rfl
  · unfold extract_textbooks
    rw [filterMap_rowEntry]
    exact List.length_map _ _

/-- Witness for C7: a concrete document with no textbook heading
produces the empty entry list. -/
theorem C7_witness : extract_textbooks noTextbookDoc = [] :=
  (C7_extract_textbooks_shape noTextbookDoc).1 (by decide)

/-- C1 (code bug): on `sampleDoc` the extractor produces exactly one
textbook entry whose isbn is `123`, and all other textbook fields are
copied into the built record, but the record's isbn is empty — the
constructor call in `build_records` never passes the extracted isbn. -/
theorem C1_isbn_dropped_at_failing_input :
    (extract_textbooks sampleDoc).map (fun e => e.isbn) = [ ("123".data) ] ∧
    sampleRecords.map (fun r => r.textbook_title) = [ ("Algorithms".data) ] ∧
    sampleRecords.map (fun r => r.authors) = [ ("A. Author".data) ] ∧
    sampleRecords.map (fun r => r.publisher) = [ ("Pub".data) ] ∧
    sampleRecords.map (fun r => r.isbn) = [ ([] : Str) ] := by
  decide

/-- C10: `build_records` never populates `publication_year`: every
record it builds carries the empty string there, hence the
publication_year column (index 4) of every emitted CSV data row is
empty. -/
theorem C10_publication_year_always_empty (soup : Node) (recs : List TextbookRecord)
    (hok : build_records soup = .ok recs) :
    ∀ r ∈ recs, r.publication_year = [] ∧
      (TextbookRecord.to_csv_row r).getD 4 ([] : Str) = [] := by
  intro r hr
  unfold build_records at hok
  cases hmeta : extract_course_metadata soup with
  | error e =>
    rw [hmeta] at hok
    cases hok
  | ok m =>
    rw [hmeta] at hok
    dsimp only at hok
    injection hok with hok2
    subst hok2
    obtain ⟨tb, htb, rfl⟩ := List.mem_map.mp hr
    exact ⟨rfl, rfl⟩

/-- Witness for C10: the concrete record built from `sampleDoc`. -/
theorem C10_witness :
    (sampleRecords.getD 0 demoRecord).publication_year = [] ∧
    ((sampleRecords.getD 0 demoRecord).to_csv_row).getD 4 ([] : Str) = [] :=
  C10_publication_year_always_empty sampleDoc sampleRecords rfl
    (sampleRecords.getD 0 demoRecord) (by decide)

end SyllabusScrape
